import Mathlib

/-!
# Verification of the signal-bitmap interpreter

A shallow embedding, in Lean 4, of the small Rust library that decodes a
per-process signal bitmap (read from the process status pseudo-file) into a
list of human-readable signal names and prints it in a fixed column-wrapped
format.

The embedding follows `src/lib.rs`:
* `sigabbrev_np` — the signal-name resolver (POSIX table + RTMIN/RTMAX ranges);
* `interpret`    — the bitmap interpreter (bits 0..62 → signal names);
* `proc_bitmap`  — the status-file reader, with the file contents made an
  explicit argument (`none` models a failed open) and the `unwrap` panic made
  an explicit `Option` (`none` models the abort);
* `sig_bitmap_line` / `sig_bitmap_out` — the presentation formatter.

Machine integers are modelled as `Nat` (the `u8 → i8` cast in `fmt_range`
is made explicit in `i8cast`), and fallible code returns `Option`.
-/

namespace SigBitmap

/-- Maximum display column width (`MAX_WIDTH` in the source). -/
def MAX_WIDTH : Nat := 80

/-- Continuation-line indent width (`SUB_WIDTH` in the source). -/
def SUB_WIDTH : Nat := 45

/-- Total number of signals (`NR_SIGS` in the source). -/
def NR_SIGS : Nat := 64

/-- `SIGRTMIN_STR` in the source. -/
def SIGRTMIN_STR : String := "RTMIN"

/-- `SIGRTMAX_STR` in the source. -/
def SIGRTMAX_STR : String := "RTMAX"

/-- `SIGRTMIN_IDX` in the source (`0x22` = 34). -/
def SIGRTMIN_IDX : Nat := 0x22

/-- `SIGRTMAX_IDX` in the source (`0x40` = 64). -/
def SIGRTMAX_IDX : Nat := 0x40

/-- The fixed 32-entry signal-name table (`SIG_TAB` in the source). -/
def SIG_TAB : List String :=
  ["HUP", "INT", "QUIT", "ILL", "TRAP", "ABRT", "BUS", "FPE", "KILL", "USR1",
   "SEGV", "USR2", "PIPE", "ALRM", "TERM", "STKFLT", "CHLD", "CONT", "STOP",
   "TSTP", "TTIN", "TTOU", "URG", "XCPU", "XFSZ", "VTALRM", "PROF", "WINCH",
   "POLL", "IO", "PWR", "SYS"]

/-- The wrapping `u8 as i8` cast of Rust, on a `Nat` holding a byte. -/
def i8cast (n : Nat) : Int :=
  if n % 256 < 128 then (n % 256 : Int) else (n % 256 : Int) - 256

/-- Rust's `{:+}` format of a (nonzero or zero) signed integer:
an explicit `+` sign for nonnegative values. -/
def fmtPlus (d : Int) : String :=
  if 0 ≤ d then "+" ++ toString d else toString d

/-- `fmt_range` from the source: render `RTMIN`/`RTMAX` plus a signed offset,
with the offset computed on values cast `u8 → i8`. -/
def fmt_range (idx off : Nat) (tmpl : String) : String :=
  let diff : Int := i8cast idx - i8cast off
  if diff = 0 then tmpl else tmpl ++ fmtPlus diff

/-- `sigabbrev_np` from the source: the signal-name resolver. The ranges are
the source's `POSIX_RANGE = 0x01..0x20`, `RTMIN_RANGE = 0x20..0x32` and
`RTMAX_RANGE = 0x32..0x41` (Rust half-open ranges). The table access
`SIG_TAB[idx - 1]` is rendered with `getD`; `sigabbrev_np?` below keeps the
possibility of an out-of-bounds panic explicit. -/
def sigabbrev_np (idx : Nat) : String :=
  if 0x01 ≤ idx ∧ idx < 0x20 then SIG_TAB.getD (idx - 1) ""
  else if 0x20 ≤ idx ∧ idx < 0x32 then fmt_range idx SIGRTMIN_IDX SIGRTMIN_STR
  else if 0x32 ≤ idx ∧ idx < 0x41 then fmt_range idx SIGRTMAX_IDX SIGRTMAX_STR
  else "INVL"

/-- `sigabbrev_np`, with the panicking table access `SIG_TAB[idx - 1]`
modelled fallibly: `none` would mean an out-of-bounds index panic. -/
def sigabbrev_np? (idx : Nat) : Option String :=
  if 0x01 ≤ idx ∧ idx < 0x20 then SIG_TAB.get? (idx - 1)
  else if 0x20 ≤ idx ∧ idx < 0x32 then
    some (fmt_range idx SIGRTMIN_IDX SIGRTMIN_STR)
  else if 0x32 ≤ idx ∧ idx < 0x41 then
    some (fmt_range idx SIGRTMAX_IDX SIGRTMAX_STR)
  else some "INVL"

/-- The resolver's behaviour as the specification words it (claim C1):
closed ranges `[1,31]`, `[32,49]`, `[50,64]`, the signed difference taken
directly over `Int` (no byte cast), explicit-sign rendering, and the
sentinel `INVL` elsewhere. -/
def resolverSpec (idx : Nat) : String :=
  if 1 ≤ idx ∧ idx ≤ 31 then SIG_TAB.getD (idx - 1) ""
  else if 32 ≤ idx ∧ idx ≤ 49 then
    if idx = 34 then "RTMIN" else "RTMIN" ++ fmtPlus ((idx : Int) - 34)
  else if 50 ≤ idx ∧ idx ≤ 64 then
    if idx = 64 then "RTMAX" else "RTMAX" ++ fmtPlus ((idx : Int) - 64)
  else "INVL"

/-- `interpret` from the source: the `while sig_idx < NR_SIGS` loop starting
at `sig_idx = 1` visits the indices `1, …, 63` in order; for each, it tests
`map & (1 << (sig_idx - 1))` and pushes `sigabbrev_np sig_idx` when the bit
is set. -/
def interpret (map : Nat) : List String :=
  (List.range' 1 63).filterMap fun sig_idx =>
    if map &&& (1 <<< (sig_idx - 1)) ≠ 0 then some (sigabbrev_np sig_idx)
    else none

/-- Population count of bits 0 through 62 of a value, as the specification
words it for claim C6. -/
def popcountBits63 (v : Nat) : Nat :=
  ((List.range 63).filter fun k => v.testBit k).length

/-- The source's bit test `m & (1 << k) ≠ 0` is exactly `Nat.testBit m k`. -/
lemma and_shift_ne_iff (m k : Nat) :
    (m &&& (1 <<< k) ≠ 0) ↔ m.testBit k = true := by
  rw [Nat.one_shiftLeft, Nat.and_two_pow]
  cases h : m.testBit k <;> simp [h]

/-- Pushing-under-`if` form of `filterMap`, over any index list. -/
lemma filterMap_bit (m : Nat) (l : List Nat) :
    (l.filterMap fun i =>
        if m &&& (1 <<< (i - 1)) ≠ 0 then some (sigabbrev_np i) else none)
      = (l.filter fun i => m.testBit (i - 1)).map sigabbrev_np := by
  induction l with
  | nil => rfl
  | cons a t ih =>
    rw [List.filterMap_cons, List.filter_cons]
    by_cases h : m.testBit (a - 1) = true
    · have h2 : m &&& (1 <<< (a - 1)) ≠ 0 := (and_shift_ne_iff m (a - 1)).mpr h
      simpa [h, h2] using ih
    · have h2 : ¬ m &&& (1 <<< (a - 1)) ≠ 0 := by
        rw [and_shift_ne_iff]; exact h
      simpa [h, h2] using ih

/-- `interpret` collects, in order, the resolver's names of the indices
`1..63` whose bit `index - 1` is set. -/
lemma interpret_eq_filter (map : Nat) :
    interpret map
      = ((List.range' 1 63).filter fun idx => map.testBit (idx - 1)).map
          sigabbrev_np := by
  unfold interpret
  exact filterMap_bit map _

/-- Bits at positions 63 and above never influence `interpret`. -/
lemma interpret_mod_two_pow (map : Nat) :
    interpret map = interpret (map % 2 ^ 63) := by
  rw [interpret_eq_filter, interpret_eq_filter]
  congr 1
  apply List.filter_congr
  intro x hx
  rw [List.mem_range'] at hx
  obtain ⟨i, hi, rfl⟩ := hx
  rw [Nat.testBit_mod_two_pow]
  have h : 1 + 1 * i - 1 < 63 := by omega
  rw [decide_eq_true h, Bool.true_and]

/-- The resolver's names at the 63 interpretable indices, evaluated. -/
lemma resolver_names_eval :
    (List.range' 1 63).map sigabbrev_np =
      ["HUP", "INT", "QUIT", "ILL", "TRAP", "ABRT", "BUS", "FPE", "KILL",
       "USR1", "SEGV", "USR2", "PIPE", "ALRM", "TERM", "STKFLT", "CHLD",
       "CONT", "STOP", "TSTP", "TTIN", "TTOU", "URG", "XCPU", "XFSZ",
       "VTALRM", "PROF", "WINCH", "POLL", "IO", "PWR", "RTMIN-2", "RTMIN-1",
       "RTMIN", "RTMIN+1", "RTMIN+2", "RTMIN+3", "RTMIN+4", "RTMIN+5",
       "RTMIN+6", "RTMIN+7", "RTMIN+8", "RTMIN+9", "RTMIN+10", "RTMIN+11",
       "RTMIN+12", "RTMIN+13", "RTMIN+14", "RTMIN+15", "RTMAX-14",
       "RTMAX-13", "RTMAX-12", "RTMAX-11", "RTMAX-10", "RTMAX-9", "RTMAX-8",
       "RTMAX-7", "RTMAX-6", "RTMAX-5", "RTMAX-4", "RTMAX-3", "RTMAX-2",
       "RTMAX-1"] := by
  decide

/-- The resolver's names at indices 1..63 are pairwise distinct. -/
lemma resolver_names_nodup : ((List.range' 1 63).map sigabbrev_np).Nodup := by
  rw [resolver_names_eval]
  decide

/-- Claim C1: for every 8-bit index the resolver returns the fixed table
entry at `index - 1` for indices 1–31; `RTMIN` at 34 and otherwise `RTMIN`
with the explicitly-signed difference `index - 34` for indices 32–49;
`RTMAX` at 64 and otherwise `RTMAX` with the explicitly-signed difference
`index - 64` for indices 50–64; and `INVL` for index 0 or above 64
(`resolverSpec` states exactly this); in particular the seven quoted
values hold. -/
theorem sigabbrev_np_meets_spec :
    (∀ idx, idx < 256 → sigabbrev_np idx = resolverSpec idx)
    ∧ sigabbrev_np 0x09 = "KILL" ∧ sigabbrev_np 0x22 = "RTMIN"
    ∧ sigabbrev_np 0x24 = "RTMIN+2" ∧ sigabbrev_np 0x40 = "RTMAX"
    ∧ sigabbrev_np 0x3e = "RTMAX-2" ∧ sigabbrev_np 0x00 = "INVL"
    ∧ sigabbrev_np 65 = "INVL" := by
  refine ⟨?_, by decide, by decide, by decide, by decide, by decide,
    by decide, by decide⟩
  set_option maxRecDepth 10000 in decide

/-- Witness for C1: the general clause instantiated at index 9. -/
theorem sigabbrev_np_meets_spec_witness :
    9 < 256 ∧ sigabbrev_np 9 = resolverSpec 9 :=
  ⟨by decide, sigabbrev_np_meets_spec.1 9 (by decide)⟩

/-- Claim C2: for every bitmap value, `interpret` returns exactly the
resolver's names of the signal indices 1..63 whose bit `index - 1` is set,
in strictly increasing index order, and bit 63 (signal 64) never affects
the result. -/
theorem interpret_meets_spec (map : Nat) :
    interpret map
      = ((List.range' 1 63).filter fun idx => map.testBit (idx - 1)).map
          sigabbrev_np
    ∧ interpret map = interpret (map % 2 ^ 63) :=
  ⟨interpret_eq_filter map, interpret_mod_two_pow map⟩

/-- Claim C6: the length of the interpreter's name list equals the
population count of bits 0 through 62 of the bitmap. -/
theorem interpret_length_popcount (v : Nat) :
    (interpret v).length = popcountBits63 v := by
  rw [interpret_eq_filter, List.length_map]
  unfold popcountBits63
  rw [List.range'_eq_map_range, List.filter_map, List.length_map]
  congr 1

/-- Claim C7: `interpret 0xbadc0ffee` yields exactly the quoted ordered
name list, with count 24. -/
theorem interpret_badc0ffee :
    interpret 0xbadc0ffee
      = ["INT", "QUIT", "ILL", "ABRT", "BUS", "FPE", "KILL", "USR1", "SEGV",
         "USR2", "PIPE", "ALRM", "TERM", "STKFLT", "URG", "XCPU", "XFSZ",
         "PROF", "WINCH", "IO", "RTMIN-2", "RTMIN-1", "RTMIN", "RTMIN+2"]
    ∧ (interpret 0xbadc0ffee).length = 24 :=
  ⟨by decide, by decide⟩

/-- Claim C8: for every bitmap value the interpreter's name list has no
duplicate strings. -/
theorem interpret_nodup (map : Nat) : (interpret map).Nodup := by
  rw [interpret_eq_filter]
  exact ((List.filter_sublist _).map sigabbrev_np).nodup resolver_names_nodup

/-- Claim C9: the resolver is total over every index 0–255: the fallible
model `sigabbrev_np?` (which keeps the table access a lookup that could
fail) always succeeds, agrees with `sigabbrev_np`, and the table index
`idx - 1` is in bounds of the 32-entry table whenever the table branch is
taken (indices 1–31). -/
theorem sigabbrev_np_total : ∀ idx, idx < 256 →
    (sigabbrev_np? idx).isSome = true
    ∧ sigabbrev_np? idx = some (sigabbrev_np idx)
    ∧ (1 ≤ idx ∧ idx < 32 → idx - 1 < SIG_TAB.length) := by
  set_option maxRecDepth 10000 in decide

/-- Witness for C9: instantiated at index 31, the last table entry used. -/
theorem sigabbrev_np_total_witness :
    31 < 256 ∧ ((sigabbrev_np? 31).isSome = true
      ∧ sigabbrev_np? 31 = some (sigabbrev_np 31)
      ∧ (1 ≤ 31 ∧ 31 < 32 → 31 - 1 < SIG_TAB.length)) :=
  ⟨by decide, sigabbrev_np_total 31 (by decide)⟩

/-- Claim C10: the resolver never returns `"SYS"` for any 8-bit index: the
table's last entry (position 31) is `"SYS"`, but index 32 falls in the
RTMIN range and resolves to `"RTMIN-2"`, so the entry is unreachable. -/
theorem sigabbrev_np_never_sys :
    SIG_TAB.getD 31 "" = "SYS" ∧ sigabbrev_np 32 = "RTMIN-2"
    ∧ ∀ idx, idx < 256 → sigabbrev_np idx ≠ "SYS" := by
  refine ⟨by decide, by decide, ?_⟩
  set_option maxRecDepth 10000 in decide

/-- Witness for C10: the universal clause instantiated at index 32. -/
theorem sigabbrev_np_never_sys_witness :
    32 < 256 ∧ sigabbrev_np 32 ≠ "SYS" :=
  ⟨by decide, sigabbrev_np_never_sys.2.2 32 (by decide)⟩

/-- Whitespace test used by Rust's `str::trim` (restricted to the ASCII
whitespace that can occur in the status file). -/
def isWS (c : Char) : Bool :=
  c == ' ' || c == '\t' || c == '\n' || c == '\r'

/-- Rust's `str::trim`: strip leading and trailing whitespace. -/
def trimStr (s : String) : String :=
  String.mk (((s.data.dropWhile isWS).reverse.dropWhile isWS).reverse)

/-- Value of one hexadecimal digit, or `none` for a non-digit. -/
def hexDigitVal? (c : Char) : Option Nat :=
  if '0' ≤ c ∧ c ≤ '9' then some (c.toNat - 48)
  else if 'a' ≤ c ∧ c ≤ 'f' then some (c.toNat - 87)
  else if 'A' ≤ c ∧ c ≤ 'F' then some (c.toNat - 55)
  else none

/-- Accumulate hexadecimal digits left to right; `none` on any non-digit. -/
def parseHexCore : List Char → Nat → Option Nat
  | [], acc => some acc
  | c :: cs, acc =>
    match hexDigitVal? c with
    | some d => parseHexCore cs (acc * 16 + d)
    | none => none

/-- Rust's `u64::from_str_radix(s, 16)`: an optional leading `+`, then at
least one hexadecimal digit, no other characters, and the value must fit
in 64 bits; `none` models `Err`. -/
def from_str_radix16 (s : String) : Option Nat :=
  let cs := match s.data with
    | '+' :: rest => rest
    | cs => cs
  match cs with
  | [] => none
  | _ =>
    match parseHexCore cs 0 with
    | some v => if v < 2 ^ 64 then some v else none
    | none => none

/-- Iteration core of `str::trim_start_matches`: remove the pattern from
the front while it is a prefix. The fuel argument only bounds the number
of rounds; started at `cs.length` it never runs out, because every round
removes at least one character of a nonempty pattern. -/
def trimStartMatchesAux : Nat → List Char → List Char → List Char
  | 0, cs, _ => cs
  | fuel + 1, cs, pre =>
    if pre ≠ [] ∧ pre.isPrefixOf cs then
      trimStartMatchesAux fuel (cs.drop pre.length) pre
    else cs

/-- Rust's `str::trim_start_matches` on character lists: repeatedly remove
the pattern from the front while it is a prefix. -/
def trimStartMatchesCs (cs pre : List Char) : List Char :=
  trimStartMatchesAux cs.length cs pre

/-- Rust's `str::trim_start_matches` on strings. -/
def trim_start_matches (s pre : String) : String :=
  String.mk (trimStartMatchesCs s.data pre.data)

/-- Rust's `str::starts_with` for a string pattern. -/
def starts_with (s p : String) : Bool :=
  p.data.isPrefixOf s.data

/-- The `BitmapType` enumeration from the source. -/
inductive BitmapType
  | SigPnd
  | ShdPnd
  | SigBlk
  | SigIgn
  | SigCgt
deriving DecidableEq

/-- The `Display` impl of `BitmapType`: the line label used both as the
lookup pattern in the status file and in the output line. -/
def BitmapType.display : BitmapType → String
  | .SigPnd => "SigPnd:"
  | .ShdPnd => "ShdPnd:"
  | .SigBlk => "SigBlk:"
  | .SigIgn => "SigIgn:"
  | .SigCgt => "SigCgt:"

/-- The line-scanning loop of `proc_bitmap`: on the first line starting
with the label, strip the label and whitespace and parse the rest as
hexadecimal, with `none` modelling the `unwrap` panic on a parse error;
`some 0` when no line matches. -/
def procLines : List String → String → Option Nat
  | [], _ => some 0
  | line :: rest, lpfx =>
    if starts_with line lpfx then
      from_str_radix16 (trimStr (trim_start_matches line lpfx))
    else procLines rest lpfx

/-- `proc_bitmap` from the source, with the status file made explicit:
`none` models a failed `File::open` (no such process), `some lines` the
opened file's lines. The result is `none` exactly when the code would
panic in `unwrap`. -/
def proc_bitmap (file : Option (List String)) (typ : BitmapType) :
    Option Nat :=
  match file with
  | none => some 0
  | some lines => procLines lines typ.display

/-- `procLines` is decided by the first line starting with the label. -/
lemma procLines_eq_find (lines : List String) (lpfx : String) :
    procLines lines lpfx
      = match lines.find? (fun l => starts_with l lpfx) with
        | none => some 0
        | some line => from_str_radix16 (trimStr (trim_start_matches line lpfx)) := by
  induction lines with
  | nil => rfl
  | cons a t ih =>
    by_cases h : starts_with a lpfx
    · simp [procLines, List.find?, h]
    · simp [procLines, List.find?, h, ih]

/-- Counterexample to claim C3: when the first line carrying the category
label holds a value that is not valid hexadecimal, the reader panics
(modelled `none`) instead of skipping the line; it neither falls through
to a later well-formed line nor returns 0. -/
theorem proc_bitmap_malformed_panics :
    proc_bitmap (some ["SigPnd:\tzz"]) BitmapType.SigPnd = none
    ∧ proc_bitmap (some ["SigPnd:\tzz"]) BitmapType.SigPnd ≠ some 0
    ∧ proc_bitmap (some ["SigPnd:\tzz", "SigPnd:\t00000000000000ff"])
        BitmapType.SigPnd ≠ some 0xff :=
  ⟨by decide, by decide, by decide⟩

/-- Claim C3 amended: the reader is decided by the first line starting
with the category label — it parses that line's value and panics
(`unwrap`) if the value is not valid hexadecimal, rather than skipping the
line; only when no line starts with the label does it return bitmap 0. -/
theorem proc_bitmap_strict (file : List String) (typ : BitmapType) :
    proc_bitmap (some file) typ
      = match file.find? (fun l => starts_with l typ.display) with
        | none => some 0
        | some line =>
            from_str_radix16 (trimStr (trim_start_matches line typ.display)) :=
  procLines_eq_find file typ.display

/-- Claim C5: a failed open of the status resource yields bitmap 0, and an
opened file in which no line begins with the category's label also yields
bitmap 0; neither case is an error (the result is `some`, never the
panic `none`). -/
theorem proc_bitmap_no_data (typ : BitmapType) (lines : List String)
    (h : ∀ l ∈ lines, starts_with l typ.display = false) :
    proc_bitmap none typ = some 0
    ∧ proc_bitmap (some lines) typ = some 0 := by
  refine ⟨rfl, ?_⟩
  induction lines with
  | nil => rfl
  | cons a t ih =>
    have ha : starts_with a typ.display = false := h a (by simp)
    have ht : ∀ l ∈ t, starts_with l typ.display = false := by
      intro l hl
      exact h l (by simp [hl])
    simpa [proc_bitmap, procLines, ha] using ih ht

/-- Witness for C5: a file whose lines carry other labels. -/
theorem proc_bitmap_no_data_witness :
    (∀ l ∈ ["Name:\tbash", "Umask:\t0022"],
        starts_with l BitmapType.SigPnd.display = false)
    ∧ (proc_bitmap none BitmapType.SigPnd = some 0
       ∧ proc_bitmap (some ["Name:\tbash", "Umask:\t0022"])
           BitmapType.SigPnd = some 0) :=
  ⟨by decide, proc_bitmap_no_data BitmapType.SigPnd _ (by decide)⟩

/-- Rust's `{:<w}` format: left-align, padding with spaces on the right. -/
def padRight (s : String) (w : Nat) : String :=
  s ++ String.mk (List.replicate (w - s.length) ' ')

/-- Padding with spaces on the left (right-alignment), as the words
"left-padded" of claim C4 describe. -/
def padLeftSp (s : String) (w : Nat) : String :=
  String.mk (List.replicate (w - s.length) ' ') ++ s

/-- Lowercase hexadecimal digit character. -/
def hexChar (n : Nat) : Char :=
  if n < 10 then Char.ofNat (48 + n) else Char.ofNat (87 + n)

/-- Hexadecimal digits of `n`, most significant first; the fuel only
bounds the number of digits and is ample at `n + 1`. -/
def toHexCore : Nat → Nat → List Char
  | 0, _ => []
  | fuel + 1, n =>
    if n < 16 then [hexChar n]
    else toHexCore fuel (n / 16) ++ [hexChar (n % 16)]

/-- Lowercase hexadecimal rendering of a natural number. -/
def toHex (n : Nat) : String :=
  String.mk (toHexCore (n + 1) n)

/-- Rust's `{:016x}` format: zero-pad the hexadecimal form to 16 digits. -/
def zeroPad16 (s : String) : String :=
  String.mk (List.replicate (16 - s.length) '0') ++ s

/-- A run of `n` spaces (`" ".repeat(n)` in the source). -/
def spacesStr (n : Nat) : String :=
  String.mk (List.replicate n ' ')

/-- Space test used when splitting the logical line into words. -/
def isSp (c : Char) : Bool := c == ' '

/-- Modelled from the spec: tokenizer for the word-wrapping routine of the
external `textwrap` crate (whose source is not part of this repository):
split a line into `(word, following-gap)` pairs. The fuel only bounds the
rounds and is ample at the character count. -/
def tokenizeAux : Nat → List Char → List (String × String)
  | 0, _ => []
  | _, [] => []
  | fuel + 1, cs =>
    let w := cs.takeWhile fun c => !(isSp c)
    let r1 := cs.dropWhile fun c => !(isSp c)
    let g := r1.takeWhile isSp
    let r2 := r1.dropWhile isSp
    (String.mk w, String.mk g) :: tokenizeAux fuel r2

/-- Split a string into `(word, following-gap)` pairs. -/
def tokenize (s : String) : List (String × String) :=
  tokenizeAux s.length s.data

/-- Strip trailing spaces (a broken line never keeps its trailing gap). -/
def trimRightStr (s : String) : String :=
  String.mk (s.data.reverse.dropWhile isSp).reverse

/-- Modelled from the spec: the greedy placement loop of `textwrap::fill`
with `break_words(false)` and `NoHyphenation`: place each word on the
current line when it fits within the column width (a first word always
goes on its line, never split), otherwise break and start a continuation
line with the indent. -/
def wrapAux (width : Nat) (ind : String) :
    List (String × String) → String → Bool → List String
  | [], cur, _ => [trimRightStr cur]
  | (w, g) :: ts, cur, hasWord =>
    if hasWord = false ∨ cur.length + w.length ≤ width then
      wrapAux width ind ts (cur ++ w ++ g) true
    else
      trimRightStr cur :: wrapAux width ind ts (ind ++ w ++ g) true

/-- Modelled from the spec: `textwrap::fill` as claim C4 and §4.4 of the
specification describe it — word-wrap the logical line to a maximum column
width, never splitting inside a word, every continuation line indented by
the given indent string. -/
def fillWrap (width : Nat) (ind : String) (s : String) : String :=
  String.intercalate "\n" (wrapAux width ind (tokenize s) "" false)

/-- The logical output line built by `sig_bitmap` in the source:
`format!("PID: {:<6} {} {:<2} [0x{:016x}]: {}", pid, map, len, bit_map,
lst_fmt)` with `lst_fmt` the comma-joined names or `"NONE"`. -/
def sig_bitmap_line (pid : Nat) (typ : BitmapType) (bit_map : Nat) : String :=
  let sig_lst := interpret bit_map
  let lst_fmt := if sig_lst.isEmpty then "NONE"
                 else String.intercalate ", " sig_lst
  "PID: " ++ padRight (toString pid) 6 ++ " " ++ typ.display ++ " "
    ++ padRight (toString sig_lst.length) 2 ++ " [0x"
    ++ zeroPad16 (toHex bit_map) ++ "]: " ++ lst_fmt

/-- The full output of `sig_bitmap` in the source: the logical line passed
through `fill` with width `MAX_WIDTH` and subsequent indent `SUB_WIDTH`
spaces. -/
def sig_bitmap_out (pid : Nat) (typ : BitmapType) (bit_map : Nat) : String :=
  fillWrap MAX_WIDTH (spacesStr SUB_WIDTH) (sig_bitmap_line pid typ bit_map)

/-- The logical line exactly as claim C4 words it: pid left-padded to
width 6 and count left-padded to width 2 (padding spaces on the left). -/
def claimLineC4 (pid : Nat) (typ : BitmapType) (bit_map : Nat) : String :=
  let names := interpret bit_map
  "PID: " ++ padLeftSp (toString pid) 6 ++ " " ++ typ.display ++ " "
    ++ padLeftSp (toString names.length) 2 ++ " [0x"
    ++ zeroPad16 (toHex bit_map) ++ "]: "
    ++ (if names = [] then "NONE" else String.intercalate ", " names)

/-- The logical line as claim C4 reads once amended: pid and count are
left-aligned, i.e. padded with spaces on the right, to widths 6 and 2. -/
def claimLineC4Amended (pid : Nat) (typ : BitmapType) (bit_map : Nat) :
    String :=
  let names := interpret bit_map
  "PID: " ++ padRight (toString pid) 6 ++ " " ++ typ.display ++ " "
    ++ padRight (toString names.length) 2 ++ " [0x"
    ++ zeroPad16 (toHex bit_map) ++ "]: "
    ++ (if names = [] then "NONE" else String.intercalate ", " names)

/-- Counterexample to claim C4: at pid 42, category `SigPnd` and bitmap 0,
the formatter's logical line pads pid and count on the right, not on the
left as the claim's "left-padded" reads; the wrapped output differs from
the claim's line accordingly. -/
theorem sig_bitmap_out_not_left_padded :
    sig_bitmap_line 42 BitmapType.SigPnd 0
      = "PID: 42     SigPnd: 0  [0x0000000000000000]: NONE"
    ∧ claimLineC4 42 BitmapType.SigPnd 0
      = "PID:     42 SigPnd:  0 [0x0000000000000000]: NONE"
    ∧ sig_bitmap_out 42 BitmapType.SigPnd 0
        ≠ fillWrap MAX_WIDTH (spacesStr SUB_WIDTH)
            (claimLineC4 42 BitmapType.SigPnd 0) :=
  ⟨by decide, by decide, by decide⟩

/-- Claim C4 amended: the formatter builds the single logical line
`PID: <pid left-aligned to width 6> <category label>: <count left-aligned
to width 2> [0x<16 zero-padded hex digits>]: <comma-and-space-joined name
list, or "NONE" when empty>` and word-wraps it to column width 80 with
continuation lines indented by 45 spaces, never splitting inside words. -/
theorem sig_bitmap_out_meets_amended_spec
    (pid : Nat) (typ : BitmapType) (bit_map : Nat) :
    sig_bitmap_out pid typ bit_map
      = fillWrap 80 (spacesStr 45) (claimLineC4Amended pid typ bit_map) := by
  unfold sig_bitmap_out MAX_WIDTH SUB_WIDTH
  congr 1
  unfold sig_bitmap_line claimLineC4Amended
  cases hl : interpret bit_map with
  | nil => simp
  | cons a t => simp

end SigBitmap
